import Mathlib

/-!
# Verification of the datafusion-ray TPC-H benchmark harness

Shallow embedding of `src/tpch/tpcbench.py` (the benchmark execution and
validation harness) and proofs of the specified properties: statement
splitting, result canonicalization and validation, query timing, report
accumulation and serialization, table registration, query selection and
the exit-code policy.
-/

namespace TpcBench

/-! ## Python string primitives

`str.strip()` and `str.split(";")` as used on line 101 of the source:
`statements = [s for s in sql.split(";") if s.strip() != ""]`. -/

/-- The characters Python's `str.strip()` removes by default
(ASCII whitespace as recognized by `str.isspace` on these inputs). -/
def isPySpace (c : Char) : Bool :=
  c = ' ' || c = '\t' || c = '\n' || c = '\x0d' || c = '\x0b' || c = '\x0c'

/-- `str.strip()` on a character list: drop leading and trailing whitespace. -/
def pyStripList (l : List Char) : List Char :=
  ((l.dropWhile isPySpace).reverse.dropWhile isPySpace).reverse

/-- Python `s.strip()`. -/
def pyStrip (s : String) : String :=
  ⟨pyStripList s.data⟩

/-- Python `s.split(";")` on a character list: split at every `;`,
keeping empty fragments (including at the ends). -/
def splitSemiList : List Char → List (List Char)
  | [] => [[]]
  | c :: rest =>
    if c = ';' then [] :: splitSemiList rest
    else
      match splitSemiList rest with
      | [] => [[c]]
      | h :: t => (c :: h) :: t

/-- Python `sql.split(";")`. -/
def pySplitSemi (sql : String) : List String :=
  (splitSemiList sql.data).map fun l => ⟨l⟩

/-- Line 101: `statements = [s for s in sql.split(";") if s.strip() != ""]`. -/
def splitStatements (sql : String) : List String :=
  (pySplitSemi sql).filter fun s => pyStrip s ≠ ""

/-! ### Facts about stripping -/

theorem pyStripList_eq_nil_iff (l : List Char) :
    pyStripList l = [] ↔ l.all isPySpace := by
  constructor
  · intro h
    have h1 : (l.dropWhile isPySpace).reverse.dropWhile isPySpace = [] := by
      have := congrArg List.reverse h
      simpa [pyStripList] using this
    -- if dropWhile produced [], the original dropWhile result is all spaces
    have h2 : ∀ c ∈ (l.dropWhile isPySpace).reverse, isPySpace c := by
      intro c hc
      by_cases hsp : isPySpace c
      · exact hsp
      · exfalso
        -- dropWhile ate everything, so every element satisfies the predicate
        have := List.dropWhile_eq_nil_iff.mp h1 c hc
        exact hsp this
    -- but the head of dropWhile (if any) fails the predicate
    cases hd : l.dropWhile isPySpace with
    | nil =>
      simp only [List.all_eq_true]
      intro c hc
      exact List.dropWhile_eq_nil_iff.mp hd c hc
    | cons x xs =>
      exfalso
      have hx : ¬ isPySpace x := by
        have := List.head?_dropWhile_not isPySpace l
        rw [hd] at this
        simpa using this
      exact hx (h2 x (by simp [hd]))
  · intro h
    have h1 : l.dropWhile isPySpace = [] :=
      List.dropWhile_eq_nil_iff.mpr (by intro c hc; exact (List.all_eq_true.mp h) c hc)
    simp [pyStripList, h1]

theorem pyStrip_eq_empty_iff (s : String) :
    pyStrip s = "" ↔ s.data.all isPySpace := by
  rw [← pyStripList_eq_nil_iff]
  constructor
  · intro h
    have : (pyStrip s).data = ("" : String).data := by rw [h]
    simpa [pyStrip] using this
  · intro h
    show (⟨pyStripList s.data⟩ : String) = ""
    rw [h]

/-- A fragment is whitespace-only (or empty): every character is whitespace. -/
def whitespaceOnly (s : String) : Bool :=
  s.data.all isPySpace

/-! ## Result batches and canonicalization

A row is a list of rendered cell values; a batch is a list of rows. The
formatter `prettify` lives in `datafusion_ray.util`, outside `src/`. -/

/-- A single result row (cell values). -/
abbrev Row := List String

/-- A result batch: an ordered list of rows. -/
abbrev Batch := List Row

/-- Canonical rendering of one row. -/
def renderRow (r : Row) : String :=
  "| " ++ String.intercalate " | " r ++ " |"

/-- Modelled from the spec: `prettify` (defined in `datafusion_ray.util`,
which is not under `src/`) canonicalizes a result-batch sequence into a
stable, row-ordered textual rendering; per the spec, the batches for one
statement are concatenated and rendered as one unit, so the output depends
only on the concatenated row sequence, not on physical batch boundaries. -/
def prettify (batches : List Batch) : String :=
  String.intercalate "\n" ((batches.flatten).map renderRow)

/-- Line 107: `calculated = [prettify(batch) for batch in batches if batch]` —
keep only per-statement batch lists that are non-empty, prettify each. -/
def calculatedOf (batches : List (List Batch)) : List String :=
  (batches.filter fun b => b ≠ []).map prettify

/-! ## Validation (lines 110–133)

The reference engine (`exec_sqls_on_tables`) yields one answer batch per
statement; line 115 keeps the non-empty ones. Lines 118–131 compare. -/

/-- Lines 118–131: compare the distributed engine's canonicalized results
against the reference engine's non-empty answer batches. Returns the
recorded outcome and the list of mismatching `(got, expected)` pairs
that are logged (empty when counts differ: no element-wise comparison). -/
def validateQuery (calculated : List String) (answerBatches : List Batch) :
    Bool × List (String × String) :=
  if answerBatches.length = calculated.length then
    let expected := answerBatches.map fun ab => prettify [ab]
    let pairs := calculated.zip expected
    (pairs.all fun x => x.1 = x.2, pairs.filter fun x => x.1 ≠ x.2)
  else
    (false, [])

/-! ## Query execution and timing (lines 101–107)

The distributed context is external; we model it as a deterministic
function from a statement to the wall-clock duration its synchronous
submit-and-collect takes and the list of batches it returns. `time.time()`
is modelled by an explicit clock threaded through the statement loop of
line 103, advanced by each statement's duration. -/

/-- The external distributed context: for one SQL statement,
`ctx.sql(s).collect()` takes some duration and returns some batches. -/
def ExecEngine := String → Nat × List Batch

/-- Line 103: run the statements in order, threading the clock; returns the
final clock and the per-statement batch lists. -/
def runStatements (eng : ExecEngine) (clock : Nat) : List String → Nat × List (List Batch)
  | [] => (clock, [])
  | s :: rest =>
    let r := eng s
    let rec' := runStatements eng (clock + r.1) rest
    (rec'.1, r.2 :: rec'.2)

/-- Lines 102–104: `end_time - start_time` for the whole statement list. -/
def queryElapsed (eng : ExecEngine) (clock0 : Nat) (stmts : List String) : Nat :=
  (runStatements eng clock0 stmts).1 - clock0

/-- Lines 101–107 for one query's SQL text: elapsed time of the single
timed window, and the canonicalized non-empty per-statement results. -/
def queryCalculated (eng : ExecEngine) (clock0 : Nat) (stmts : List String) : List String :=
  calculatedOf (runStatements eng clock0 stmts).2

/-! ## Report accumulation and serialization (lines 79–96, 105, 133, 136–142) -/

/-- Python `dict` assignment `d[k] = v`: replace in place if the key is
present, append otherwise (insertion order preserved). -/
def dictInsert {α : Type} (k : String) (v : α) : List (String × α) → List (String × α)
  | [] => [(k, v)]
  | (k', v') :: rest =>
    if k' = k then (k, v) :: rest else (k', v') :: dictInsert k v rest

/-- The `results` dictionary (lines 83–96) with its mutable parts. -/
structure Report where
  engine : String
  benchmark : String
  concurrency : Int
  batch_size : Int
  prefetch_buffer_size : Int
  partitions_per_worker : Option Int
  data_path : String
  queries : List (String × Nat)
  validated : Option (List (String × Bool))
deriving DecidableEq

/-- Serialize an association list as ordered `key=value` lines. -/
def serializeAssoc {α : Type} (render : α → String) (es : List (String × α)) : String :=
  String.intercalate "\n" (es.map fun e => e.1 ++ "=" ++ render e.2)

/-- `json.dumps(results)` (line 137) modelled as a deterministic rendering
of the entire report. -/
def serializeReport (r : Report) : String :=
  "engine=" ++ r.engine ++ "\nbenchmark=" ++ r.benchmark ++
  "\nconcurrency=" ++ toString r.concurrency ++
  "\nbatch_size=" ++ toString r.batch_size ++
  "\nprefetch_buffer_size=" ++ toString r.prefetch_buffer_size ++
  "\npartitions_per_worker=" ++ toString r.partitions_per_worker ++
  "\ndata_path=" ++ r.data_path ++
  "\nqueries:\n" ++ serializeAssoc toString r.queries ++
  (match r.validated with
   | none => ""
   | some vs => "\nvalidated:\n" ++ serializeAssoc toString vs)

/-- Lines 79–80: the report file name embeds the run's start timestamp in
milliseconds, computed once before the query loop. -/
def resultsPath (millis : Nat) : String :=
  "datafusion-ray-tpch-" ++ toString millis ++ ".json"

/-- Lines 83–96: the report created once at startup; the validation
mapping exists exactly when `--validate` was given. -/
def initialReport (validate : Bool) (concurrency batch_size prefetch_buffer_size : Int)
    (partitions_per_worker : Option Int) (data_path : String) : Report :=
  { engine := "datafusion-ray"
    benchmark := "tpch"
    concurrency := concurrency
    batch_size := batch_size
    prefetch_buffer_size := prefetch_buffer_size
    partitions_per_worker := partitions_per_worker
    data_path := data_path
    queries := []
    validated := if validate then some [] else none }

/-- Observable I/O of the query loop: the report-file write (lines 138–139)
and the stdout echo of the same dump (line 142). -/
inductive Event where
  | fileWrite (path : String) (content : String)
  | stdoutDump (content : String)
deriving DecidableEq

/-- One completed query as absorbed by the report: its identifier, its
elapsed time, and its validation outcome. -/
structure QueryRecord where
  qid : String
  elapsed : Nat
  outcome : Bool
deriving DecidableEq

/-- How one completed query mutates the report (lines 105 and 133): insert
the elapsed time under the query's identifier, and, when validating, insert
the validation outcome. -/
def reportStep (validate : Bool) (r : Report) (qr : QueryRecord) : Report :=
  let r1 := { r with queries := dictInsert qr.qid qr.elapsed r.queries }
  if validate then
    { r1 with validated := some (dictInsert qr.qid qr.outcome (r1.validated.getD [])) }
  else r1

/-- One iteration of the loop body as it touches the report (lines 105,
133, 136–142): mutate the report, serialize the entire report, write it to
the results file, echo the same dump to stdout. -/
def benchStep (validate : Bool) (path : String) (st : Report × List Event)
    (qr : QueryRecord) : Report × List Event :=
  let r2 := reportStep validate st.1 qr
  let dump := serializeReport r2
  (r2, st.2 ++ [Event.fileWrite path dump, Event.stdoutDump dump])

/-- The whole query loop (lines 98–142), from a given initial report. -/
def runBench (validate : Bool) (path : String) (init : Report)
    (qrs : List QueryRecord) : Report × List Event :=
  qrs.foldl (benchStep validate path) (init, [])

/-! ## Table registration (lines 44–54, 71–77) -/

/-- Lines 45–54: the eight fixed table names. -/
def table_names : List String :=
  ["customer", "lineitem", "nation", "orders", "part", "partsupp", "region", "supplier"]

/-- POSIX `os.path.join(a, b)`: take `b` if it is absolute; concatenate
directly if `a` is empty or ends in a slash; join with a slash otherwise. -/
def osPathJoin (a b : String) : String :=
  if b.data.head? = some '/' then b
  else if a.data = [] ∨ a.data.getLast? = some '/' then a ++ b
  else a ++ "/" ++ b

/-- A registration call against the context's table catalog. -/
inductive RegEvent where
  | registerListing (name : String) (path : String)
  | registerParquet (name : String) (path : String)
deriving DecidableEq

/-- The table name of a registration call. -/
def RegEvent.name : RegEvent → String
  | .registerListing n _ => n
  | .registerParquet n _ => n

/-- The resolved path of a registration call. -/
def RegEvent.path : RegEvent → String
  | .registerListing _ p => p
  | .registerParquet _ p => p

/-- Whether the call used the listing binding mode. -/
def RegEvent.isListing : RegEvent → Bool
  | .registerListing _ _ => true
  | .registerParquet _ _ => false

/-- Lines 71–77: for each fixed table, build the path
`os.path.join(data_path, f"\x7btable\x7d.parquet")` and register it in the
configured binding mode. -/
def registerTables (data_path : String) (listing_tables : Bool) : List RegEvent :=
  table_names.map fun t =>
    let path := osPathJoin data_path (t ++ ".parquet")
    if listing_tables then .registerListing t path else .registerParquet t path

/-! ## Argument handling and query selection (lines 154–226) -/

/-- A query's SQL text as selected by `__main__`: either the catalog text of
a numbered TPC-H query (`tpch_query`, which reads `queries/q<n>.sql`) or the
user-supplied ad hoc string. -/
inductive SqlText where
  | tpch (n : Int)
  | custom (s : String)
deriving DecidableEq

/-- Outcome of `__main__`'s selection logic: exit with code 1 on an invalid
query number, or proceed into `main` with a query list. -/
inductive Dispatch where
  | exitInvalid
  | run (queries : List (String × SqlText))
deriving DecidableEq

/-- The full ordered suite, lines 213–214: `(str(i), tpch_query(i))` for
`i in range(1, 23)`. -/
def fullSuite : List (String × SqlText) :=
  ((List.range 22).map fun i => ((i : Int) + 1)).map fun n => (toString n, SqlText.tpch n)

/-- Lines 197–214: the advisory print for a conflicting selection followed
by the selection chain. Returns the printed messages and the dispatch. -/
def parseDispatch (qnum : Int) (query : Option String) : List String × Dispatch :=
  let msgs : List String :=
    if qnum ≠ -1 ∧ query.isSome then
      ["Please specify either --qnum or --query, but not both"]
    else []
  if qnum ≠ -1 then
    if qnum < 1 ∨ 22 < qnum then
      (msgs ++ ["Invalid query number. Please specify a number between 1 and 22."],
       .exitInvalid)
    else
      (msgs, .run [(toString qnum, SqlText.tpch qnum)])
  else
    match query with
    | some q => (msgs, .run [("custom query", SqlText.custom q)])
    | none => (msgs, .run fullSuite)

/-- The selection logic alone (lines 200–214), without the advisory check of
lines 197–198. -/
def selectQueries (qnum : Int) (query : Option String) : Dispatch :=
  if qnum ≠ -1 then
    if qnum < 1 ∨ 22 < qnum then .exitInvalid
    else .run [(toString qnum, SqlText.tpch qnum)]
  else
    match query with
    | some q => .run [("custom query", SqlText.custom q)]
    | none => .run fullSuite

/-- The resolved command-line arguments handed to `__main__` (after
argparse defaults and the `int()` coercions of lines 216–226). -/
structure ProgArgs where
  data : String
  concurrency : Int
  qnum : Int
  query : Option String
  listing_tables : Bool
  validate : Bool
  batch_size : Int
  partitions_per_processor : Option Int
  prefetch_buffer_size : Int
  worker_pool_min : Option Int
deriving DecidableEq

/-- The configuration record `main` passes to the distributed context
(lines 59–66, from the arguments of lines 216–226), echoed unchanged. -/
structure Config where
  concurrency : Int
  batch_size : Int
  prefetch_buffer_size : Int
  partitions_per_worker : Option Int
  worker_pool_min : Option Int
deriving DecidableEq

/-- Lines 216–226: the configuration is the parsed arguments, unchanged. -/
def configOf (a : ProgArgs) : Config :=
  { concurrency := a.concurrency
    batch_size := a.batch_size
    prefetch_buffer_size := a.prefetch_buffer_size
    partitions_per_worker := a.partitions_per_processor
    worker_pool_min := a.worker_pool_min }

/-- `--qnum` is out of range: not the `-1` default and outside 1..22
(line 202). -/
def qnumOutOfRange (qnum : Int) : Bool :=
  qnum ≠ -1 ∧ (qnum < 1 ∨ 22 < qnum)

/-- Execution begins (the process reaches `main`, line 216) exactly when
the selection logic does not exit. -/
def beginsExecution (a : ProgArgs) : Bool :=
  (parseDispatch a.qnum a.query).2 ≠ Dispatch.exitInvalid

/-- The invariant the specification claims of the configuration record:
all numeric fields non-negative, concurrency strictly positive. -/
def configInvariant (c : Config) : Prop :=
  0 < c.concurrency ∧ 0 ≤ c.batch_size ∧ 0 ≤ c.prefetch_buffer_size ∧
  (∀ p ∈ c.partitions_per_worker, 0 ≤ p) ∧ (∀ w ∈ c.worker_pool_min, 0 ≤ w)

/-! ## The whole benchmark run (`main`, lines 33–151) -/

/-- Modelled from the spec: the reference engine (`exec_sqls_on_tables`
from `datafusion_ray.util`, not under `src/`) executes each statement
against the named tables and returns one answer batch per statement. -/
def RefEngine := String → Batch

/-- Lines 115–116: keep the non-empty per-statement answers of the
reference engine. -/
def answerBatchesOf (ref : RefEngine) (stmts : List String) : List Batch :=
  (stmts.map ref).filter fun b => b ≠ []

/-- The SQL text a selected query resolves to: `tpch_query(n)` reads the
catalog file `queries/q<n>.sql` (abstracted as `tpchText`), an ad hoc
query is its own text. -/
def sqlOf (tpchText : Int → String) : SqlText → String
  | .tpch n => tpchText n
  | .custom s => s

/-- Lines 98–133 for one `(qid, sql)` pair: split the statements, execute
and time them on the distributed context, and, when validating, compare
against the reference engine's answers. -/
def runOneQuery (dist : ExecEngine) (ref : RefEngine) (validate : Bool)
    (tpchText : Int → String) (q : String × SqlText) : QueryRecord :=
  let stmts := splitStatements (sqlOf tpchText q.2)
  let outcome :=
    if validate then
      (validateQuery (queryCalculated dist 0 stmts) (answerBatchesOf ref stmts)).1
    else true
  ⟨q.1, queryElapsed dist 0 stmts, outcome⟩

/-- The report accumulation loop of `main` with the report of lines 79–96:
results file named by the start timestamp, initial report echoing the
configuration. -/
def benchRun (validate : Bool) (concurrency batch_size prefetch_buffer_size : Int)
    (partitions_per_worker : Option Int) (data_path : String) (millis : Nat)
    (qrs : List QueryRecord) : Report × List Event :=
  runBench validate (resultsPath millis)
    (initialReport validate concurrency batch_size prefetch_buffer_size
      partitions_per_worker data_path) qrs

/-- `benchRun` with the configuration drawn from the parsed arguments, as
`__main__` passes them into `main` (lines 216–226). -/
def benchRunArgs (a : ProgArgs) (millis : Nat) (qrs : List QueryRecord) :
    Report × List Event :=
  benchRun a.validate a.concurrency a.batch_size a.prefetch_buffer_size
    a.partitions_per_processor a.data millis qrs

/-- The whole process: `__main__` selection (lines 195–214) then `main`
(lines 216–226, 33–151). Returns the final report (`none` when the process
exits before `main` runs), the observable report-file/stdout events, and
the process exit status (lines 148–151 and 204). -/
def programRun (a : ProgArgs) (dist : ExecEngine) (ref : RefEngine)
    (tpchText : Int → String) (millis : Nat) : Option Report × List Event × Nat :=
  match (parseDispatch a.qnum a.query).2 with
  | .exitInvalid => (none, [], 1)
  | .run qs =>
    let qrs := qs.map (runOneQuery dist ref a.validate tpchText)
    let res := benchRunArgs a millis qrs
    (some res.1, res.2,
      if a.validate && (res.1.validated.getD []).any (fun kv => !kv.2) then 1 else 0)

/-! ## Helper lemmas -/

theorem keep_iff_not_whitespaceOnly (s : String) :
    (decide (pyStrip s ≠ "") = true) ↔ whitespaceOnly s = false := by
  have h := pyStrip_eq_empty_iff s
  simp only [decide_eq_true_eq, ne_eq, whitespaceOnly]
  constructor
  · intro hne
    cases hall : s.data.all isPySpace with
    | false => rfl
    | true => exact absurd (h.mpr (by simp [hall])) hne
  · intro hfalse hempty
    have := h.mp hempty
    rw [hfalse] at this
    exact Bool.false_ne_true this

theorem prettify_eq_of_flatten_eq (b1 b2 : List Batch) (h : b1.flatten = b2.flatten) :
    prettify b1 = prettify b2 := by
  unfold prettify
  rw [h]

theorem mem_zip_self {α : Type} (l : List α) (p : α × α) (hp : p ∈ l.zip l) :
    p.1 = p.2 := by
  induction l with
  | nil => simp at hp
  | cons a t ih =>
    simp only [List.zip_cons_cons, List.mem_cons] at hp
    rcases hp with h | h
    · rw [h]
    · exact ih h

/-! ## Claims -/

/-- C8: for every SQL input, splitting on `;` discards exactly the
fragments that are empty or whitespace-only after trimming, and preserves
the relative order of the remaining statements (the kept list is a sublist
of the raw split). -/
theorem c8_statement_splitting (sql : String) :
    (splitStatements sql).Sublist (pySplitSemi sql) ∧
    (∀ s ∈ splitStatements sql, whitespaceOnly s = false) ∧
    (∀ s ∈ pySplitSemi sql, whitespaceOnly s = false → s ∈ splitStatements sql) := by
  refine ⟨List.filter_sublist _, ?_, ?_⟩
  · intro s hs
    have := (List.mem_filter.mp hs).2
    exact (keep_iff_not_whitespaceOnly s).mp this
  · intro s hs hw
    exact List.mem_filter.mpr ⟨hs, (keep_iff_not_whitespaceOnly s).mpr hw⟩

/-- C8 witness: on a concrete input the split keeps the two non-empty
statements in order and drops the whitespace-only fragments. -/
theorem c8_statement_splitting_witness :
    (splitStatements "select 1; \n ;select 2;").Sublist (pySplitSemi "select 1; \n ;select 2;") ∧
    (∀ s ∈ splitStatements "select 1; \n ;select 2;", whitespaceOnly s = false) ∧
    (∀ s ∈ pySplitSemi "select 1; \n ;select 2;", whitespaceOnly s = false →
      s ∈ splitStatements "select 1; \n ;select 2;") :=
  c8_statement_splitting "select 1; \n ;select 2;"

/-- C1: the recorded validation outcome is `true` iff the count of
non-empty reference results equals the count of non-empty distributed
results and every canonicalized pair compares equal in statement order;
with matching counts every mismatching pair (got, expected) is in the
logged mismatch list (comparison does not stop at the first mismatch);
with differing counts the outcome is `false` and no pair is compared. -/
theorem c1_validation_outcome (calculated : List String) (answerBatches : List Batch) :
    ((validateQuery calculated answerBatches).1 = true ↔
      (answerBatches.length = calculated.length ∧
        ∀ p ∈ calculated.zip (answerBatches.map fun ab => prettify [ab]), p.1 = p.2)) ∧
    (answerBatches.length = calculated.length →
      ∀ p : String × String,
        (p ∈ (validateQuery calculated answerBatches).2 ↔
          (p ∈ calculated.zip (answerBatches.map fun ab => prettify [ab]) ∧ p.1 ≠ p.2))) ∧
    (answerBatches.length ≠ calculated.length →
      validateQuery calculated answerBatches = (false, [])) := by
  by_cases h : answerBatches.length = calculated.length
  · refine ⟨?_, ?_, ?_⟩
    · simp [validateQuery, if_pos h, List.all_eq_true, h]
    · intro _ p
      simp [validateQuery, if_pos h, List.mem_filter]
    · intro hne
      exact absurd h hne
  · refine ⟨?_, ?_, ?_⟩
    · simp [validateQuery, if_neg h, h]
    · intro hh
      exact absurd hh h
    · intro _
      simp [validateQuery, if_neg h]

/-- C1 witness: with matching counts and one mismatching pair, the outcome
is `false` and the mismatching pair (and only it) is logged. -/
theorem c1_validation_outcome_witness :
    (validateQuery ["| a |", "| b |"] [[["a"]], [["c"]]]).1 = false ∧
    (("| b |", "| c |") ∈ (validateQuery ["| a |", "| b |"] [[["a"]], [["c"]]]).2 ∧
      ("| a |", "| a |") ∉ (validateQuery ["| a |", "| b |"] [[["a"]], [["c"]]]).2) ∧
    validateQuery ["| a |"] [] = (false, []) := by
  have h := c1_validation_outcome ["| a |", "| b |"] [[["a"]], [["c"]]]
  have h0 := c1_validation_outcome ["| a |"] ([] : List Batch)
  refine ⟨?_, ⟨?_, ?_⟩, h0.2.2 (by decide)⟩
  · cases hb : (validateQuery ["| a |", "| b |"] [[["a"]], [["c"]]]).1 with
    | false => rfl
    | true =>
      have := (h.1.mp hb).2 ("| b |", "| c |") (by decide)
      simp at this
  · exact ((h.2.1 (by decide)) ("| b |", "| c |")).mpr (by decide)
  · intro hmem
    have := ((h.2.1 (by decide)) ("| a |", "| a |")).mp hmem
    simp at this

/-- C4: both engines' results go through the same formatter `prettify`,
applied at whole-statement granularity: `prettify` depends only on the
concatenation of a statement's physical batches, so when each distributed
statement's batches flatten to the same rows as the reference answer
batch, validation succeeds with no mismatch regardless of how the
distributed output was split into physical batches. -/
theorem c4_formatting_granularity :
    (∀ b1 b2 : List Batch, b1.flatten = b2.flatten → prettify b1 = prettify b2) ∧
    (∀ (calcBatches : List (List Batch)) (answers : List Batch),
      calcBatches.length = answers.length →
      (∀ (i : Nat) (h1 : i < calcBatches.length) (h2 : i < answers.length),
        calcBatches[i].flatten = answers[i]) →
      validateQuery (calcBatches.map prettify) answers = (true, [])) := by
  refine ⟨prettify_eq_of_flatten_eq, ?_⟩
  intro calcBatches answers hlen hrows
  have hmap : calcBatches.map prettify = answers.map fun ab => prettify [ab] := by
    apply List.ext_get
    · simp [hlen]
    · intro i h1 h2
      simp only [List.get_eq_getElem, List.getElem_map]
      apply prettify_eq_of_flatten_eq
      rw [List.flatten_cons, List.flatten_nil, List.append_nil]
      exact hrows i (by simpa using h1) (by simpa using h2)
  rw [hmap]
  unfold validateQuery
  rw [if_pos (by simp)]
  refine Prod.ext ?_ ?_
  · simp only
    rw [List.all_eq_true]
    intro p hp
    exact decide_eq_true (mem_zip_self _ p hp)
  · simp only
    rw [List.filter_eq_nil_iff]
    intro p hp
    simp [mem_zip_self _ p hp]

/-- C4 witness: the same three logical rows split 2+1 on the distributed
side and delivered as single answer batches on the reference side
validate successfully. -/
theorem c4_formatting_granularity_witness :
    prettify [[["a"], ["b"]], [["c"]]] = prettify [[["a"]], [["b"], ["c"]]] ∧
    validateQuery ([[[["a"], ["b"]], [["c"]]]].map prettify) [[["a"], ["b"], ["c"]]] =
      (true, []) :=
  ⟨c4_formatting_granularity.1 [[["a"], ["b"]], [["c"]]] [[["a"]], [["b"], ["c"]]] (by decide),
   c4_formatting_granularity.2 [[[["a"], ["b"]], [["c"]]]] [[["a"], ["b"], ["c"]]]
     (by decide) (by decide)⟩

theorem runStatements_fst (eng : ExecEngine) (stmts : List String) : ∀ clock : Nat,
    (runStatements eng clock stmts).1 = clock + (stmts.map fun s => (eng s).1).sum := by
  induction stmts with
  | nil => intro clock; simp [runStatements]
  | cons s rest ih =>
    intro clock
    simp only [runStatements, List.map_cons, List.sum_cons]
    rw [ih (clock + (eng s).1)]
    omega

theorem runStatements_snd (eng : ExecEngine) (stmts : List String) : ∀ clock : Nat,
    (runStatements eng clock stmts).2 = stmts.map fun s => (eng s).2 := by
  induction stmts with
  | nil => intro clock; simp [runStatements]
  | cons s rest ih =>
    intro clock
    simp only [runStatements, List.map_cons]
    rw [ih (clock + (eng s).1)]

/-- C5: the recorded elapsed time is the single wall-clock window spanning
the execution of all of a query's statements (the difference between the
clock after the last collection and the clock before the first submission
equals the sum of every statement's duration); a statement yielding no
rows contributes no entry to the displayed/validated result list but its
duration still falls inside the timed window. -/
theorem c5_timing_window (eng : ExecEngine) (clock0 : Nat) :
    (∀ stmts : List String,
      queryElapsed eng clock0 stmts = (stmts.map fun s => (eng s).1).sum) ∧
    (∀ (pre post : List String) (s : String), (eng s).2 = [] →
      queryCalculated eng clock0 (pre ++ s :: post) = queryCalculated eng clock0 (pre ++ post) ∧
      queryElapsed eng clock0 (pre ++ s :: post) =
        queryElapsed eng clock0 (pre ++ post) + (eng s).1) := by
  have helapsed : ∀ stmts : List String,
      queryElapsed eng clock0 stmts = (stmts.map fun s => (eng s).1).sum := by
    intro stmts
    unfold queryElapsed
    rw [runStatements_fst]
    omega
  refine ⟨helapsed, ?_⟩
  intro pre post s hempty
  constructor
  · unfold queryCalculated calculatedOf
    rw [runStatements_snd, runStatements_snd]
    simp [hempty]
  · rw [helapsed, helapsed]
    simp only [List.map_append, List.map_cons, List.sum_append, List.sum_cons]
    omega

/-- C5 witness: with a two-statement query whose second statement returns
no rows, the elapsed time is the sum of both durations while only the
first statement appears in the result list. -/
theorem c5_timing_window_witness :
    queryElapsed (fun s => if s = "a" then (3, [[["r"]]]) else (5, [])) 0 ["a", "b"] = 8 ∧
    queryCalculated (fun s => if s = "a" then (3, [[["r"]]]) else (5, [])) 0 ["a", "b"] =
      queryCalculated (fun s => if s = "a" then (3, [[["r"]]]) else (5, [])) 0 ["a"] := by
  have h := c5_timing_window (fun s => if s = "a" then (3, [[["r"]]]) else (5, [])) 0
  refine ⟨?_, ?_⟩
  · rw [h.1 ["a", "b"]]
    decide
  · exact (h.2 ["a"] [] "b" (by decide)).1

theorem dictInsert_of_not_mem {α : Type} (k : String) (v : α) (d : List (String × α))
    (h : k ∉ d.map Prod.fst) : dictInsert k v d = d ++ [(k, v)] := by
  induction d with
  | nil => rfl
  | cons kv rest ih =>
    obtain ⟨k', v'⟩ := kv
    simp only [List.map_cons, List.mem_cons] at h
    push_neg at h
    simp only [dictInsert]
    rw [if_neg fun hh => h.1 hh.symm, ih h.2]
    rfl

theorem foldl_reportStep_queries (validate : Bool) (qrs : List QueryRecord) :
    ∀ r : Report, (qrs.map QueryRecord.qid).Nodup →
    (∀ q ∈ qrs, q.qid ∉ r.queries.map Prod.fst) →
    (qrs.foldl (reportStep validate) r).queries
      = r.queries ++ qrs.map fun q => (q.qid, q.elapsed) := by
  induction qrs with
  | nil => intro r _ _; simp
  | cons q rest ih =>
    intro r hnodup hfresh
    rw [List.map_cons, List.nodup_cons] at hnodup
    have hnd := hnodup
    have hq : q.qid ∉ r.queries.map Prod.fst := hfresh q (List.mem_cons_self _ _)
    have hstep : (reportStep validate r q).queries = r.queries ++ [(q.qid, q.elapsed)] := by
      cases validate <;> simp [reportStep, dictInsert_of_not_mem _ _ _ hq]
    have hfr : ∀ p ∈ rest, p.qid ∉ (reportStep validate r q).queries.map Prod.fst := by
      intro p hp hmem
      rw [hstep] at hmem
      simp only [List.map_append, List.mem_append, List.map_cons, List.map_nil,
        List.mem_singleton] at hmem
      rcases hmem with hin | hin
      · exact hfresh p (List.mem_cons_of_mem _ hp) hin
      · exact hnd.1 (hin ▸ List.mem_map_of_mem QueryRecord.qid hp)
    simp only [List.foldl_cons, List.map_cons]
    rw [ih (reportStep validate r q) hnd.2 hfr, hstep]
    simp

theorem foldl_reportStep_validated_false (qrs : List QueryRecord) :
    ∀ r : Report, (qrs.foldl (reportStep false) r).validated = r.validated := by
  induction qrs with
  | nil => intro r; rfl
  | cons q rest ih =>
    intro r
    simp only [List.foldl_cons]
    rw [ih]
    rfl

theorem foldl_reportStep_validated_true (qrs : List QueryRecord) :
    ∀ (r : Report) (vs : List (String × Bool)), r.validated = some vs →
    (qrs.map QueryRecord.qid).Nodup →
    (∀ q ∈ qrs, q.qid ∉ vs.map Prod.fst) →
    (qrs.foldl (reportStep true) r).validated
      = some (vs ++ qrs.map fun q => (q.qid, q.outcome)) := by
  induction qrs with
  | nil => intro r vs hv _ _; simpa using hv
  | cons q rest ih =>
    intro r vs hv hnodup hfresh
    rw [List.map_cons, List.nodup_cons] at hnodup
    have hnd := hnodup
    have hq : q.qid ∉ vs.map Prod.fst := hfresh q (List.mem_cons_self _ _)
    have hstep : (reportStep true r q).validated = some (vs ++ [(q.qid, q.outcome)]) := by
      simp [reportStep, hv, dictInsert_of_not_mem _ _ _ hq]
    have hfr : ∀ p ∈ rest, p.qid ∉ (vs ++ [(q.qid, q.outcome)]).map Prod.fst := by
      intro p hp hmem
      simp only [List.map_append, List.mem_append, List.map_cons, List.map_nil,
        List.mem_singleton] at hmem
      rcases hmem with hin | hin
      · exact hfresh p (List.mem_cons_of_mem _ hp) hin
      · exact hnd.1 (hin ▸ List.mem_map_of_mem QueryRecord.qid hp)
    simp only [List.foldl_cons, List.map_cons]
    rw [ih (reportStep true r q) (vs ++ [(q.qid, q.outcome)]) hstep
      hnd.2 hfr]
    simp

theorem runBench_fst (validate : Bool) (path : String) (qrs : List QueryRecord) :
    ∀ (init : Report) (es : List Event),
    (qrs.foldl (benchStep validate path) (init, es)).1
      = qrs.foldl (reportStep validate) init := by
  induction qrs with
  | nil => intro init es; rfl
  | cons q rest ih =>
    intro init es
    simp only [List.foldl_cons]
    exact ih _ _

theorem runBench_events (validate : Bool) (path : String) (init : Report)
    (qrs : List QueryRecord) :
    (runBench validate path init qrs).2 =
      ((List.range qrs.length).map fun i =>
        [Event.fileWrite path
            (serializeReport (runBench validate path init (qrs.take (i + 1))).1),
         Event.stdoutDump
            (serializeReport (runBench validate path init (qrs.take (i + 1))).1)]).flatten := by
  induction qrs using List.reverseRecOn with
  | nil => rfl
  | append_singleton l q ih =>
    have hsnoc : runBench validate path init (l ++ [q])
        = benchStep validate path (runBench validate path init l) q := by
      simp [runBench, List.foldl_append]
    have hlen : (l ++ [q]).length = l.length + 1 := by simp
    have htake : (l ++ [q]).take (l.length + 1) = l ++ [q] := by
      apply List.take_of_length_le
      simp
    have hmapc :
        ((List.range l.length).map fun i =>
          [Event.fileWrite path
              (serializeReport (runBench validate path init ((l ++ [q]).take (i + 1))).1),
           Event.stdoutDump
              (serializeReport (runBench validate path init ((l ++ [q]).take (i + 1))).1)])
        = ((List.range l.length).map fun i =>
          [Event.fileWrite path
              (serializeReport (runBench validate path init (l.take (i + 1))).1),
           Event.stdoutDump
              (serializeReport (runBench validate path init (l.take (i + 1))).1)]) := by
      apply List.map_congr_left
      intro i hi
      have hle : (l ++ [q]).take (i + 1) = l.take (i + 1) :=
        List.take_append_of_le_length (by simpa using List.mem_range.mp hi)
      rw [hle]
    rw [hlen, List.range_succ, List.map_append, List.flatten_append, hmapc, ← ih]
    simp only [List.map_cons, List.map_nil, List.flatten_cons, List.flatten_nil,
      List.append_nil, htake, hsnoc]
    simp [benchStep]

/-- C3: after each of the first `N` completed queries the loop emits a
write of the serialized *entire* report to the single results file named
by the run's start timestamp, followed by the same serialized form on
stdout; at that point the elapsed-time mapping holds exactly the `N`
executed query identifiers in execution order, and a validation mapping
with the same `N` keys is present exactly when validation was enabled. -/
theorem c3_report_after_each_query (a : ProgArgs) (millis : Nat)
    (qrs : List QueryRecord) (hnodup : (qrs.map QueryRecord.qid).Nodup) :
    (∀ n : Nat,
      ((benchRunArgs a millis (qrs.take n)).1.queries.map Prod.fst
          = (qrs.map QueryRecord.qid).take n) ∧
      (a.validate = false → (benchRunArgs a millis (qrs.take n)).1.validated = none) ∧
      (a.validate = true → ∃ vs,
        (benchRunArgs a millis (qrs.take n)).1.validated = some vs ∧
          vs.map Prod.fst = (qrs.map QueryRecord.qid).take n)) ∧
    ((benchRunArgs a millis qrs).2 =
      ((List.range qrs.length).map fun i =>
        [Event.fileWrite (resultsPath millis)
            (serializeReport (benchRunArgs a millis (qrs.take (i + 1))).1),
         Event.stdoutDump
            (serializeReport (benchRunArgs a millis (qrs.take (i + 1))).1)]).flatten) := by
  constructor
  · intro n
    have hnd : ((qrs.take n).map QueryRecord.qid).Nodup := by
      have hsub : List.Sublist ((qrs.take n).map QueryRecord.qid) (qrs.map QueryRecord.qid) :=
        List.Sublist.map QueryRecord.qid (List.take_sublist n qrs)
      exact hsub.nodup hnodup
    have hfst : (benchRunArgs a millis (qrs.take n)).1
        = (qrs.take n).foldl (reportStep a.validate)
            (initialReport a.validate a.concurrency a.batch_size a.prefetch_buffer_size
              a.partitions_per_processor a.data) :=
      runBench_fst a.validate (resultsPath millis) (qrs.take n) _ []
    refine ⟨?_, ?_, ?_⟩
    · rw [hfst, foldl_reportStep_queries a.validate (qrs.take n) _ hnd (by simp [initialReport])]
      simp only [initialReport, List.nil_append, List.map_map, List.map_take]
      rfl
    · intro hv
      rw [hfst, hv]
      rw [foldl_reportStep_validated_false]
      simp [initialReport, hv]
    · intro hv
      rw [hfst, hv]
      refine ⟨(qrs.take n).map fun q => (q.qid, q.outcome), ?_, ?_⟩
      · rw [foldl_reportStep_validated_true (qrs.take n) _ []
          (by simp [initialReport, hv]) hnd (by simp)]
        simp
      · simp only [List.map_map, List.map_take]
        rfl
  · exact runBench_events a.validate (resultsPath millis) _ qrs

/-- C3 witness: a two-query validated run writes the full report twice to
the same timestamp-named file, echoing each dump to stdout, and ends with
both query identifiers recorded in order in both mappings. -/
theorem c3_report_after_each_query_witness :
    ((benchRunArgs ⟨"/d", 2, -1, none, false, true, 8192, none, 0, none⟩ 7
        ([⟨"1", 4, true⟩, ⟨"2", 5, false⟩].take 2)).1.queries.map Prod.fst
      = ([⟨"1", 4, true⟩, ⟨"2", 5, false⟩].map QueryRecord.qid).take 2) ∧
    (∃ vs, (benchRunArgs ⟨"/d", 2, -1, none, false, true, 8192, none, 0, none⟩ 7
        ([⟨"1", 4, true⟩, ⟨"2", 5, false⟩].take 2)).1.validated = some vs ∧
      vs.map Prod.fst = ([⟨"1", 4, true⟩, ⟨"2", 5, false⟩].map QueryRecord.qid).take 2) ∧
    ((benchRunArgs ⟨"/d", 2, -1, none, false, true, 8192, none, 0, none⟩ 7
        [⟨"1", 4, true⟩, ⟨"2", 5, false⟩]).2 =
      ((List.range 2).map fun i =>
        [Event.fileWrite (resultsPath 7)
            (serializeReport (benchRunArgs ⟨"/d", 2, -1, none, false, true, 8192, none, 0, none⟩ 7
              ([⟨"1", 4, true⟩, ⟨"2", 5, false⟩].take (i + 1))).1),
         Event.stdoutDump
            (serializeReport (benchRunArgs ⟨"/d", 2, -1, none, false, true, 8192, none, 0, none⟩ 7
              ([⟨"1", 4, true⟩, ⟨"2", 5, false⟩].take (i + 1))).1)]).flatten) := by
  have h := c3_report_after_each_query ⟨"/d", 2, -1, none, false, true, 8192, none, 0, none⟩ 7
    [⟨"1", 4, true⟩, ⟨"2", 5, false⟩] (by decide)
  exact ⟨(h.1 2).1, (h.1 2).2.2 rfl, h.2⟩

theorem osPathJoin_of_normal (a b : String) (ha1 : a.data ≠ [])
    (ha2 : a.data.getLast? ≠ some '/') (hb : b.data.head? ≠ some '/') :
    osPathJoin a b = a ++ "/" ++ b := by
  unfold osPathJoin
  rw [if_neg hb, if_neg (not_or.mpr ⟨ha1, ha2⟩)]

theorem registerTables_paths (root : String) (listing : Bool) :
    (registerTables root listing).map RegEvent.path
      = table_names.map fun t => osPathJoin root (t ++ ".parquet") := by
  unfold registerTables
  rw [List.map_map]
  apply List.map_congr_left
  intro t _
  cases listing <;> rfl

/-- C7: every configuration registers exactly the eight fixed table names,
each under the path `<root>/<name>.parquet` (for a root that is non-empty
and not slash-terminated), with the same path in either binding mode — the
mode only selects listing-table versus parquet-file registration. -/
theorem c7_table_registration (root : String) (listing : Bool)
    (h1 : root.data ≠ []) (h2 : root.data.getLast? ≠ some '/') :
    ((registerTables root listing).map RegEvent.name = table_names) ∧
    ((registerTables root listing).map RegEvent.path
        = table_names.map fun t => root ++ "/" ++ t ++ ".parquet") ∧
    (∀ e ∈ registerTables root listing, e.isListing = listing) ∧
    ((registerTables root true).map RegEvent.path
        = (registerTables root false).map RegEvent.path) := by
  refine ⟨?_, ?_, ?_, ?_⟩
  · unfold registerTables
    rw [List.map_map]
    have hpt : ∀ t ∈ table_names,
        (RegEvent.name ∘ fun t =>
          if listing then RegEvent.registerListing t (osPathJoin root (t ++ ".parquet"))
          else RegEvent.registerParquet t (osPathJoin root (t ++ ".parquet"))) t = id t := by
      intro t _
      cases listing <;> rfl
    rw [List.map_congr_left hpt, List.map_id]
  · rw [registerTables_paths]
    apply List.map_congr_left
    intro t ht
    have hb : (t ++ ".parquet").data.head? ≠ some '/' := by
      fin_cases ht <;> decide
    rw [osPathJoin_of_normal root _ h1 h2 hb]
    simp [String.append_assoc]
  · intro e he
    unfold registerTables at he
    rw [List.mem_map] at he
    obtain ⟨t, _, rfl⟩ := he
    cases listing <;> rfl
  · rw [registerTables_paths, registerTables_paths]

/-- C7 witness: with root `/data` every table is registered at
`/data/<name>.parquet` in both binding modes. -/
theorem c7_table_registration_witness :
    ((registerTables "/data" true).map RegEvent.name = table_names) ∧
    ((registerTables "/data" true).map RegEvent.path
        = table_names.map fun t => "/data" ++ "/" ++ t ++ ".parquet") ∧
    (∀ e ∈ registerTables "/data" true, e.isListing = true) ∧
    ((registerTables "/data" true).map RegEvent.path
        = (registerTables "/data" false).map RegEvent.path) :=
  c7_table_registration "/data" true (by decide) (by decide)

theorem parseDispatch_exitInvalid_iff (qnum : Int) (query : Option String) :
    (parseDispatch qnum query).2 = Dispatch.exitInvalid ↔ qnumOutOfRange qnum = true := by
  by_cases hq : qnum = -1
  · subst hq
    cases query <;> simp [parseDispatch, qnumOutOfRange]
  · by_cases hrange : qnum < 1 ∨ 22 < qnum
    · simp [parseDispatch, qnumOutOfRange, hq, hrange]
    · simp [parseDispatch, qnumOutOfRange, hq, hrange]

/-- C9: when both a numbered and an ad hoc query are supplied, the program
only prints the advisory message — the dispatch is exactly what the
subsequent selection logic produces, and for an in-range query number the
run proceeds to execute the numbered query rather than aborting. -/
theorem c9_conflict_advisory_only (qnum : Int) (q : String) (hq : qnum ≠ -1) :
    (parseDispatch qnum (some q)).1.head? =
      some "Please specify either --qnum or --query, but not both" ∧
    (parseDispatch qnum (some q)).2 = selectQueries qnum (some q) ∧
    (1 ≤ qnum → qnum ≤ 22 →
      (parseDispatch qnum (some q)).2 = Dispatch.run [(toString qnum, SqlText.tpch qnum)]) := by
  by_cases hrange : qnum < 1 ∨ 22 < qnum
  · refine ⟨?_, ?_, ?_⟩
    · simp [parseDispatch, hq, hrange]
    · simp [parseDispatch, selectQueries, hq, hrange]
    · intro ha hb
      exfalso
      rcases hrange with h | h <;> omega
  · refine ⟨?_, ?_, ?_⟩
    · simp [parseDispatch, hq, hrange]
    · simp [parseDispatch, selectQueries, hq, hrange]
    · intro _ _
      simp [parseDispatch, hq, hrange]

/-- C9 witness: `--qnum 7` together with an ad hoc query prints the
advisory and still runs query 7. -/
theorem c9_conflict_advisory_only_witness :
    (parseDispatch 7 (some "select 1")).1.head? =
      some "Please specify either --qnum or --query, but not both" ∧
    (parseDispatch 7 (some "select 1")).2 = selectQueries 7 (some "select 1") ∧
    (parseDispatch 7 (some "select 1")).2 = Dispatch.run [("7", SqlText.tpch 7)] := by
  have h := c9_conflict_advisory_only 7 "select 1" (by decide)
  exact ⟨h.1, h.2.1, h.2.2 (by decide) (by decide)⟩

/-- C10: a non-sentinel `--qnum` together with `--query` runs exactly the
numbered TPC-H query (the ad hoc text is ignored), while an explicit
`--qnum` of `-1` (the default) never triggers the range error and falls
through to the ad hoc query, or to the full 22-query suite when no ad hoc
query is given. -/
theorem c10_qnum_precedence :
    (∀ (qnum : Int) (q : String), 1 ≤ qnum → qnum ≤ 22 →
      (parseDispatch qnum (some q)).2 = Dispatch.run [(toString qnum, SqlText.tpch qnum)]) ∧
    (∀ query : Option String, (parseDispatch (-1) query).2 ≠ Dispatch.exitInvalid) ∧
    (∀ q : String, (parseDispatch (-1) (some q)).2
      = Dispatch.run [("custom query", SqlText.custom q)]) ∧
    ((parseDispatch (-1) none).2 = Dispatch.run fullSuite) := by
  refine ⟨?_, ?_, ?_, ?_⟩
  · intro qnum q hlo hhi
    have hq : qnum ≠ -1 := by omega
    have hrange : ¬(qnum < 1 ∨ 22 < qnum) := by
      push_neg
      omega
    simp [parseDispatch, hq, hrange]
  · intro query
    cases query <;> simp [parseDispatch]
  · intro q
    simp [parseDispatch]
  · simp [parseDispatch]

/-- C10 witness: `--qnum 5` with an ad hoc query runs query 5 and drops
the ad hoc text; an explicit `-1` runs the ad hoc query, or the full
suite when none is supplied. -/
theorem c10_qnum_precedence_witness :
    (parseDispatch 5 (some "select 99")).2 = Dispatch.run [("5", SqlText.tpch 5)] ∧
    (parseDispatch (-1) (some "select 99")).2
      = Dispatch.run [("custom query", SqlText.custom "select 99")] ∧
    (parseDispatch (-1) none).2 = Dispatch.run fullSuite :=
  ⟨c10_qnum_precedence.1 5 "select 99" (by decide) (by decide),
   c10_qnum_precedence.2.2.1 "select 99", c10_qnum_precedence.2.2.2⟩

/-- C6 counterexample: the claimed invariant fails — a run with a negative
concurrency begins execution, because the code never validates the numeric
configuration fields. -/
theorem c6_config_invariant_counterexample :
    ¬ (∀ a : ProgArgs, beginsExecution a = true → configInvariant (configOf a)) := by
  intro h
  have hbad := h ⟨"/data", -3, 1, none, false, false, 8192, none, 0, none⟩ (by decide)
  exact absurd hbad.1 (by decide)

/-- C6 (amended): the program enforces no invariant on the numeric
configuration fields — whether execution begins depends only on the query
selection flags, and any in-range (or default) `--qnum` begins execution
regardless of the numeric values, which are passed through unchanged. -/
theorem c6_no_numeric_validation (a a' : ProgArgs)
    (hq : a.qnum = a'.qnum) (hs : a.query = a'.query) :
    beginsExecution a = beginsExecution a' ∧
    (qnumOutOfRange a.qnum = false → beginsExecution a = true) := by
  constructor
  · unfold beginsExecution
    rw [hq, hs]
  · intro h
    have hne : ¬ ((parseDispatch a.qnum a.query).2 = Dispatch.exitInvalid) := by
      rw [parseDispatch_exitInvalid_iff, h]
      exact Bool.false_ne_true
    unfold beginsExecution
    exact decide_eq_true hne

/-- C6 witness: two runs differing only in (negative versus positive)
concurrency both begin execution. -/
theorem c6_no_numeric_validation_witness :
    beginsExecution ⟨"/data", -3, 1, none, false, false, 8192, none, 0, none⟩
      = beginsExecution ⟨"/data", 7, 1, none, false, false, 8192, none, 0, none⟩ ∧
    beginsExecution ⟨"/data", -3, 1, none, false, false, 8192, none, 0, none⟩ = true := by
  have h := c6_no_numeric_validation
    ⟨"/data", -3, 1, none, false, false, 8192, none, 0, none⟩
    ⟨"/data", 7, 1, none, false, false, 8192, none, 0, none⟩ rfl rfl
  exact ⟨h.1, h.2 (by decide)⟩

theorem exit_flag_iff (validate : Bool) (vs : List (String × Bool)) :
    ((if (validate && vs.any fun kv => !kv.2) then (1 : Nat) else 0) = 1) ↔
      (validate = true ∧ ∃ kv ∈ vs, kv.2 = false) := by
  by_cases h : (validate && vs.any fun kv => !kv.2) = true
  · rw [if_pos h]
    simp only [Bool.and_eq_true, List.any_eq_true, Bool.not_eq_true'] at h
    simp [h]
  · rw [if_neg h]
    simp only [Bool.and_eq_true, List.any_eq_true, Bool.not_eq_true'] at h
    constructor
    · intro h01
      exact absurd h01 (by decide)
    · intro hx
      exact absurd hx h

/-- C2: exit status 1 with no report object, no file write and no
execution when `--qnum` is out of range; otherwise exit status 0 whenever
validation is disabled, and with a report produced the exit status is 1
exactly when validation was enabled and some query's recorded outcome is
false. -/
theorem c2_exit_code_policy (a : ProgArgs) (dist : ExecEngine) (ref : RefEngine)
    (tpchText : Int → String) (millis : Nat) :
    (qnumOutOfRange a.qnum = true →
      programRun a dist ref tpchText millis = (none, [], 1)) ∧
    (qnumOutOfRange a.qnum = false → a.validate = false →
      (programRun a dist ref tpchText millis).2.2 = 0) ∧
    (∀ rep : Report, (programRun a dist ref tpchText millis).1 = some rep →
      ((programRun a dist ref tpchText millis).2.2 = 1 ↔
        (a.validate = true ∧ ∃ kv ∈ rep.validated.getD [], kv.2 = false))) := by
  cases hd : (parseDispatch a.qnum a.query).2 with
  | exitInvalid =>
    have hout : qnumOutOfRange a.qnum = true := (parseDispatch_exitInvalid_iff _ _).mp hd
    refine ⟨?_, ?_, ?_⟩
    · intro _
      simp [programRun, hd]
    · intro hfalse _
      rw [hout] at hfalse
      exact absurd hfalse (by decide)
    · intro rep hrep
      simp [programRun, hd] at hrep
  | run qs =>
    refine ⟨?_, ?_, ?_⟩
    · intro htrue
      have := (parseDispatch_exitInvalid_iff a.qnum a.query).mpr htrue
      rw [hd] at this
      exact absurd this (by simp)
    · intro _ hval
      simp [programRun, hd, hval]
    · intro rep hrep
      simp only [programRun, hd] at hrep ⊢
      obtain rfl := Option.some.inj hrep
      exact exit_flag_iff a.validate _

/-- C2 witness: an out-of-range `--qnum 99` exits 1 before execution with
no report and no file write; an in-range run without validation exits 0. -/
theorem c2_exit_code_policy_witness :
    qnumOutOfRange (99 : Int) = true ∧
    programRun ⟨"/d", 1, 99, none, false, false, 8192, none, 0, none⟩
      (fun _ => (1, [[["r"]]])) (fun _ => [["r"]]) (fun _ => "q") 0 = (none, [], 1) ∧
    (programRun ⟨"/d", 1, 3, none, false, false, 8192, none, 0, none⟩
      (fun _ => (1, [[["r"]]])) (fun _ => [["r"]]) (fun _ => "q") 0).2.2 = 0 := by
  refine ⟨by decide, ?_, ?_⟩
  · exact (c2_exit_code_policy ⟨"/d", 1, 99, none, false, false, 8192, none, 0, none⟩
      (fun _ => (1, [[["r"]]])) (fun _ => [["r"]]) (fun _ => "q") 0).1 (by decide)
  · exact (c2_exit_code_policy ⟨"/d", 1, 3, none, false, false, 8192, none, 0, none⟩
      (fun _ => (1, [[["r"]]])) (fun _ => [["r"]]) (fun _ => "q") 0).2.1 (by decide) rfl

end TpcBench








